import Mathlib

/-!
Verification development for the json-mini repository: a shallow embedding of
`src/include/json/lexer.hpp` (class `JsonLexer`) and
`src/include/json/parser.hpp` (classes `JsonObject`, `JsonGroup`, `JsonString`,
`JsonNumber`, `JsonParser`), followed by theorems about the embedded code.

Conventions of the embedding:
* C++ strings are `List Char` (indexed) or `String` (token payloads).
* Fallible code is modelled with explicit result inductives.  The C++ lexer
  signals an error by printing a message and returning an empty vector; the
  three distinct message sites are modelled as three `LexError` values.
  The C++ parser returns `std::nullopt` on its error paths (modelled `.fail`);
  genuinely undefined behaviour of the source (out-of-bounds `tokens[i]`,
  a failed `assert(false)`, an uncaught `std::stoi` exception) is modelled by
  the distinguished outcome `.crash`.
* File loading in `JsonLexer::scan` (lines 46-53) is out of scope; `scan` here
  takes the loaded text, exactly as the lexing loop (lines 56-116) consumes it.
-/

/-- `JsonTokenType` of lexer.hpp lines 10-17. -/
inductive JsonTokenType
  | TOK_LEFT_BRACE
  | TOK_RIGHT_BRACE
  | TOK_COLON
  | TOK_COMMA
  | TOK_STR_VAL
  | TOK_NUMBER
deriving DecidableEq, Repr

/-- `JsonToken` of lexer.hpp lines 21-34. -/
structure JsonToken where
  type : JsonTokenType
  content : String
deriving DecidableEq, Repr

/-- The three error exits of `JsonLexer::scan` (lexer.hpp lines 67-68, 74-75,
107-109), named as in the spec's error taxonomy. -/
inductive LexError
  | UnexpectedCharacter (c : Char)
  | UnterminatedString
  | TruncatedNumber
deriving DecidableEq, Repr

/-- `JsonLexer::is_digit` (lexer.hpp lines 124-126): `c >= '0' && c <= '9'`. -/
def is_digit (c : Char) : Bool :=
  '0' ≤ c && c ≤ '9'

/-- Distance from the front of `l` to its first `'"'` (or `l.length` if none):
the number of iterations of the while loop at lexer.hpp line 104. -/
def quote_dist : List Char → Nat
  | [] => 0
  | c :: r => if c = '"' then 0 else 1 + quote_dist r

/-- Distance from the front of `l` to its first non-digit (or `l.length` if
none): the iterations of the while loop at lexer.hpp line 63. -/
def nondigit_dist : List Char → Nat
  | [] => 0
  | c :: r => if is_digit c then 1 + nondigit_dist r else 0

/-- Index of the first `'"'` at position `≥ a` (the final value of `end` after
the while loop at lexer.hpp line 104, entered with `end = a`). -/
def find_quote (s : List Char) (a : Nat) : Nat :=
  a + quote_dist (s.drop a)

/-- Index of the first non-digit at position `≥ a` (the final value of `end`
after the while loop at lexer.hpp line 63, entered with `end = a`). -/
def find_non_digit (s : List Char) (a : Nat) : Nat :=
  a + nondigit_dist (s.drop a)

/-- `json_string.substr(a, b - a)`: the characters of indices `[a, b)`. -/
def substr (s : List Char) (a b : Nat) : String :=
  String.mk ((s.drop a).take (b - a))

theorem find_quote_ge (s : List Char) (a : Nat) : a ≤ find_quote s a :=
  Nat.le_add_right a _

theorem find_non_digit_ge (s : List Char) (a : Nat) : a ≤ find_non_digit s a :=
  Nat.le_add_right a _

/-- The lexing loop of `JsonLexer::scan` (lexer.hpp lines 57-116).  `start` is
the `start` cursor, `e` is the loop variable `end`, `acc` the `tokens` vector.
Each recursive call is one execution of `end++` in the for-loop header; the
string and number cases pass the updated `start`/`end` produced by their inner
while loops.  Note two quirks of the source, reproduced faithfully here:
the whitespace and single-character cases set `start = end` (at, not past, the
current character), and the number case emits `substr(start, end - start)` and
then lets the for-loop increment skip the character that terminated the digit
run. -/
def scan_loop (s : List Char) (start e : Nat) (acc : List JsonToken) :
    Except LexError (List JsonToken) :=
  if h : e < s.length then
    let c := s[e]
    if c = '\n' ∨ c = '\t' ∨ c = '\r' ∨ c = ' ' then
      scan_loop s e (e + 1) acc
    else if c = '\x7b' then
      scan_loop s e (e + 1) (acc ++ [⟨.TOK_LEFT_BRACE, "\x7b"⟩])
    else if c = '\x7d' then
      scan_loop s e (e + 1) (acc ++ [⟨.TOK_RIGHT_BRACE, "\x7d"⟩])
    else if c = ':' then
      scan_loop s e (e + 1) (acc ++ [⟨.TOK_COLON, ":"⟩])
    else if c = ',' then
      scan_loop s e (e + 1) (acc ++ [⟨.TOK_COMMA, ","⟩])
    else if c = '"' then
      let e2 := find_quote s (e + 1)
      if e2 = s.length then
        .error .UnterminatedString
      else
        scan_loop s e2 (e2 + 1) (acc ++ [⟨.TOK_STR_VAL, substr s (e + 1) e2⟩])
    else if is_digit c then
      let e2 := find_non_digit s (e + 1)
      if e2 = s.length then
        .error .TruncatedNumber
      else
        scan_loop s e2 (e2 + 1) (acc ++ [⟨.TOK_NUMBER, substr s start e2⟩])
    else
      .error (.UnexpectedCharacter c)
  else
    .ok acc
termination_by s.length - e
decreasing_by
  · omega
  · omega
  · omega
  · omega
  · omega
  · have := find_quote_ge s (e + 1); omega
  · have := find_non_digit_ge s (e + 1); omega

/-- `JsonLexer::scan` applied to the already-loaded file contents. -/
def scan (text : String) : Except LexError (List JsonToken) :=
  scan_loop text.data 0 0 []

/-! ## Parser (parser.hpp) -/

/-- The `JsonObject` hierarchy of parser.hpp lines 14-68, as a closed sum:
`JsonGroup` (name, fields), `JsonString` (name, value), `JsonNumber` (name,
number).  The C++ `number` is `int`; values are produced by `std::stoi`, whose
out-of-range behaviour is modelled in `std_stoi` below, so `Int` is exact
here. -/
inductive JsonObject
  | JsonGroup (name : String) (fields : List JsonObject)
  | JsonString (name : String) (value : String)
  | JsonNumber (name : String) (number : Int)

/-- Result of `JsonParser::parse`: `.ok` for an engaged
`std::optional<std::unique_ptr<JsonObject>>`, `.fail` for `std::nullopt`,
`.crash` for undefined behaviour the source can reach (out-of-bounds
`tokens[i]` at lines 131 and 137, `assert(false)` at line 172, an uncaught
`std::stoi` exception at line 138). -/
inductive ParseOutcome
  | ok (object : JsonObject)
  | fail
  | crash

/-- Result of the `for` loop of `JsonParser::parse` (lines 103-175): the
`objects` vector on normal exit, or the propagated failure/crash. -/
inductive LoopOutcome
  | ok (objects : List JsonObject)
  | fail
  | crash

/-- The sentinel literal `"__ROOT__"` (parser.hpp lines 163, 178, 183). -/
def rootName : String := "__ROOT__"

/-- `isspace` of the default C locale, used by `std::stoi`. -/
def is_space (c : Char) : Bool :=
  c = ' ' || c = '\t' || c = '\n' || c = '\x0b' || c = '\x0c' || c = '\r'

/-- Value of a run of decimal digits. -/
def digits_val (ds : List Char) : Int :=
  ds.foldl (fun a c => a * 10 + ((c.toNat : Int) - ('0'.toNat : Int))) 0

/-- `std::stoi` (called at parser.hpp line 138): skip leading whitespace, an
optional sign, then a nonempty digit run; `none` models the thrown
`std::invalid_argument` (no digits) or `std::out_of_range` (outside the range
of a 32-bit `int`). -/
def std_stoi (s : String) : Option Int :=
  let t := s.data.dropWhile is_space
  let sr : Int × List Char :=
    match t with
    | '-' :: r => (-1, r)
    | '+' :: r => (1, r)
    | r => (1, r)
  let ds := sr.2.takeWhile (fun c => '0' ≤ c && c ≤ '9')
  if ds.isEmpty then none
  else
    let v : Int := sr.1 * digits_val ds
    if v < -2147483648 ∨ 2147483647 < v then none else some v

/-- The depth-matching while loop of parser.hpp lines 107-116 (and its copy at
lines 143-152): starting from `depth` just after an opening brace, the number
of tokens consumed until the loop stops, i.e. the final `end_idx - i`.  The
loop stops after the token that brings the depth to 0, or at the end of the
sequence. -/
def brace_scan : List JsonToken → Int → Nat
  | [], _ => 0
  | t :: r, depth =>
    let d : Int :=
      if t.type = .TOK_LEFT_BRACE then depth + 1
      else if t.type = .TOK_RIGHT_BRACE then depth - 1
      else depth
    if 0 < d then 1 + brace_scan r d else 1

/-- Lines 176-183 of `JsonParser::parse`: if the sibling list is exactly one
`JsonGroup` named `"__ROOT__"`, return it; otherwise wrap the list in a fresh
`JsonGroup` named `"__ROOT__"`. -/
def finalize (objects : List JsonObject) : JsonObject :=
  match objects with
  | [JsonObject.JsonGroup name fields] =>
    if name = rootName then JsonObject.JsonGroup name fields
    else JsonObject.JsonGroup rootName objects
  | _ => JsonObject.JsonGroup rootName objects

mutual

/-- `JsonParser::parse` (parser.hpp lines 102-184): run the loop, then apply
the root unwrap/wrap of lines 176-183. -/
def parse (tokens : List JsonToken) : ParseOutcome :=
  match parse_loop tokens [] with
  | .ok objects => .ok (finalize objects)
  | .fail => .fail
  | .crash => .crash
termination_by (tokens.length, 1)

/-- The `for` loop of `JsonParser::parse` (lines 104-175).  `ts` is the suffix
`tokens[i..]` of the (already destructively updated) vector, `objects` the
accumulated sibling list.  The source's `extract_from_to(tokens, i, end_idx-1)`
removes the tokens `[i, end_idx-1)` and the following `i++` then steps over the
old `tokens[end_idx-1]`; since the loop never rereads positions `< i`, this is
exactly `take (e2 - 1)` for the extracted group and `drop e2` for the
continuation, with `e2 = end_idx - i` the `brace_scan` count.  `rest = []`
corresponds to `i >= tokens.size()`, i.e. the `break` at lines 118 and 154. -/
def parse_loop (ts : List JsonToken) (objects : List JsonObject) : LoopOutcome :=
  match ts with
  | [] => .ok objects
  | tok :: rest =>
    if tok.type = .TOK_LEFT_BRACE then
      if rest = [] then .ok objects
      else
        let e2 := brace_scan rest 1
        match parse (rest.take (e2 - 1)) with
        | .ok obj => parse_loop (rest.drop e2) (objects ++ [obj])
        | .fail => .fail
        | .crash => .crash
    else if tok.type = .TOK_STR_VAL then
      match rest with
      | [] => .crash
      | c :: rest2 =>
        if c.type ≠ .TOK_COLON then .fail
        else
          match rest2 with
          | [] => .crash
          | v :: rest3 =>
            if v.type = .TOK_NUMBER then
              match std_stoi v.content with
              | some k => parse_loop rest3 (objects ++ [.JsonNumber tok.content k])
              | none => .crash
            else if v.type = .TOK_STR_VAL then
              parse_loop rest3 (objects ++ [.JsonString tok.content v.content])
            else if v.type = .TOK_LEFT_BRACE then
              if rest3 = [] then .ok objects
              else
                let e2 := brace_scan rest3 1
                match parse (rest3.take (e2 - 1)) with
                | .ok obj =>
                  match obj with
                  | .JsonGroup gname gfields =>
                    if gname ≠ rootName then .fail
                    else parse_loop (rest3.drop e2) (objects ++ [.JsonGroup tok.content gfields])
                  | _ => parse_loop (rest3.drop e2) (objects ++ [obj])
                | .fail => .fail
                | .crash => .crash
            else .crash
    else
      parse_loop rest objects
termination_by (ts.length, 0)

end

/-! ## Renderer (`JsonParser::to_string`, parser.hpp lines 192-217) -/

/-- `std::string(indent_lvl, '\t')`: one tab per nesting level. -/
def tabs (n : Nat) : String := String.mk (List.replicate n '\t')

mutual

/-- `JsonParser::to_string` (parser.hpp lines 192-217): a group prints an
optional `"name": ` prefix (omitted exactly when the name is the sentinel),
`{`, its children via the iterator loop of lines 201-209, and `}` at its own
indentation; string and number fields print on one line. -/
def to_string (object : JsonObject) (indent_lvl : Nat) : String :=
  match object with
  | .JsonGroup name fields =>
    (if name ≠ rootName then tabs indent_lvl ++ "\"" ++ name ++ "\": "
     else tabs indent_lvl)
      ++ "\x7b\n" ++ fields_to_string fields (indent_lvl + 1) true
      ++ tabs indent_lvl ++ "\x7d"
  | .JsonString name value =>
    tabs indent_lvl ++ "\"" ++ name ++ "\": " ++ "\"" ++ value ++ "\""
  | .JsonNumber name number =>
    tabs indent_lvl ++ "\"" ++ name ++ "\": " ++ toString number

/-- The child loop of `to_string` (parser.hpp lines 201-209): `",\n"` before
every child but the first, the child itself one level deeper, `"\n"` after the
last child. -/
def fields_to_string (fields : List JsonObject) (lvl : Nat) (first : Bool) :
    String :=
  match fields with
  | [] => ""
  | f :: rest =>
    (if first then "" else ",\n") ++ to_string f lvl
      ++ (if rest.isEmpty then "\n" else "") ++ fields_to_string rest lvl false

end

/-! Spec-side renderer for the refinement claim C6.  `render_spec` follows the
words of the spec (section 4.2, "Renderer", quoted in claim C6): emit
`"name": {` with the name prefix omitted exactly when the group is the
synthetic root (in this embedding, the sentinel-named group), then each child
on its own line one tab deeper, siblings separated by `,`, then `}` at the
group's own indentation; `"name": "value"` for string fields; `"name": value`
for number fields. -/

mutual

/-- Spec-side rendering of one node (claim C6's wording). -/
def render_spec (node : JsonObject) (lvl : Nat) : String :=
  match node with
  | .JsonGroup name fields =>
    (if name = rootName then tabs lvl else tabs lvl ++ "\"" ++ name ++ "\": ")
      ++ "\x7b\n" ++ render_spec_children fields (lvl + 1) ++ tabs lvl ++ "\x7d"
  | .JsonString name value =>
    tabs lvl ++ "\"" ++ name ++ "\": \"" ++ value ++ "\""
  | .JsonNumber name value =>
    tabs lvl ++ "\"" ++ name ++ "\": " ++ toString value

/-- Spec-side rendering of a child list: each child on its own line, `,`
between siblings. -/
def render_spec_children (children : List JsonObject) (lvl : Nat) : String :=
  match children with
  | [] => ""
  | [f] => render_spec f lvl ++ "\n"
  | f :: rest => render_spec f lvl ++ ",\n" ++ render_spec_children rest lvl

end

/-! ## Helper lemmas -/

theorem nondigit_dist_all (l : List Char) (h : ∀ c ∈ l, is_digit c) :
    nondigit_dist l = l.length := by
  induction l with
  | nil => rfl
  | cons c r ih =>
    have hc := h c (List.mem_cons_self c r)
    simp [nondigit_dist, hc, ih fun x hx => h x (List.mem_cons_of_mem c hx)]
    omega

theorem quote_dist_all (l : List Char) (h : ∀ c ∈ l, c ≠ '"') :
    quote_dist l = l.length := by
  induction l with
  | nil => rfl
  | cons c r ih =>
    have hc := h c (List.mem_cons_self c r)
    simp [quote_dist, hc, ih fun x hx => h x (List.mem_cons_of_mem c hx)]
    omega

theorem quote_dist_append (u v : List Char) (h : ∀ c ∈ u, c ≠ '"') :
    quote_dist (u ++ '"' :: v) = u.length := by
  induction u with
  | nil => simp [quote_dist]
  | cons c r ih =>
    have hc := h c (List.mem_cons_self c r)
    simp [quote_dist, hc, ih fun x hx => h x (List.mem_cons_of_mem c hx)]
    omega

theorem fields_to_string_false (fs : List JsonObject) (lvl : Nat)
    (h : fs ≠ []) :
    fields_to_string fs lvl false = ",\n" ++ fields_to_string fs lvl true := by
  cases fs with
  | nil => exact absurd rfl h
  | cons f rest =>
    simp only [fields_to_string]
    cases rest <;> simp [String.append_assoc]

mutual

theorem to_string_eq_render_spec (o : JsonObject) (lvl : Nat) :
    to_string o lvl = render_spec o lvl := by
  cases o with
  | JsonGroup name fields =>
    rw [to_string, render_spec, fields_eq_children fields (lvl + 1)]
    by_cases h : name = rootName <;> simp [h]
  | JsonString name value => rw [to_string, render_spec]; simp [String.append_assoc]
  | JsonNumber name value => rw [to_string, render_spec]

theorem fields_eq_children (fs : List JsonObject) (lvl : Nat) :
    fields_to_string fs lvl true = render_spec_children fs lvl := by
  cases fs with
  | nil => rw [fields_to_string, render_spec_children]
  | cons f rest =>
    cases rest with
    | nil =>
      rw [fields_to_string, render_spec_children, to_string_eq_render_spec f lvl]
      simp [fields_to_string]
    | cons g t =>
      rw [fields_to_string, render_spec_children,
        fields_to_string_false (g :: t) lvl (List.cons_ne_nil g t),
        fields_eq_children (g :: t) lvl, to_string_eq_render_spec f lvl]
      · simp [String.append_assoc]
      · exact List.cons_ne_nil g t

end

/-! ## Claims -/

/-- C1: the claimed round-trip property fails on the dialect input
`{"a": 1}`.  The scan of that text yields only four tokens — after the digit
run of `1`, the emitted number token is `substr(start, end - start)` with
`start` still at the preceding space (content `" 1"`), and the for-loop's
`end++` then skips the terminating `'}'`, so no `TOK_RIGHT_BRACE` is ever
produced — and parsing those four tokens reaches an out-of-bounds
`tokens[i]` access (the value position after `"a":` is past the end of the
extracted group), so no tree and no rendered text is produced at all. -/
theorem c1_roundtrip_code_bug :
    scan "\x7b\"a\": 1\x7d" =
      .ok [⟨.TOK_LEFT_BRACE, "\x7b"⟩, ⟨.TOK_STR_VAL, "a"⟩, ⟨.TOK_COLON, ":"⟩,
           ⟨.TOK_NUMBER, " 1"⟩] ∧
    parse [⟨.TOK_LEFT_BRACE, "\x7b"⟩, ⟨.TOK_STR_VAL, "a"⟩, ⟨.TOK_COLON, ":"⟩,
           ⟨.TOK_NUMBER, " 1"⟩] = .crash := by
  constructor
  · simp +decide [scan, scan_loop, find_quote, find_non_digit, quote_dist,
      nondigit_dist, substr, is_digit]
  · simp +decide [parse, parse_loop, brace_scan, finalize, std_stoi,
      digits_val, is_space, rootName]

/-- C2: `JsonParser::parse` has no `UnbalancedBraces` error.  On the token
sequence of `{"a": {"b": 1}` (one fewer closing brace than opening), the
depth-matching loop runs off the end of the vector without any check, the
truncated span is extracted anyway, and the recursive call reads `tokens[i]`
out of bounds at the value position of `"b":` — undefined behaviour, not an
error return. -/
theorem c2_unbalanced_braces_code_bug :
    parse [⟨.TOK_LEFT_BRACE, "\x7b"⟩, ⟨.TOK_STR_VAL, "a"⟩, ⟨.TOK_COLON, ":"⟩,
           ⟨.TOK_LEFT_BRACE, "\x7b"⟩, ⟨.TOK_STR_VAL, "b"⟩, ⟨.TOK_COLON, ":"⟩,
           ⟨.TOK_NUMBER, "1"⟩, ⟨.TOK_RIGHT_BRACE, "\x7d"⟩] = .crash := by
  simp +decide [parse, parse_loop, brace_scan, finalize, std_stoi,
    digits_val, is_space, rootName]

/-- C3: scanning `{"a": 1}` does not yield the claimed five tokens.  The
whitespace case sets the start cursor to the position of the whitespace
character itself (not past it), so the number token's content is `" 1"`,
and the character that terminates a digit run is skipped by the for-loop
increment, so the final `'}'` yields no token: the result is these four
tokens. -/
theorem c3_scan_example_code_bug :
    scan "\x7b\"a\": 1\x7d" =
      .ok [⟨.TOK_LEFT_BRACE, "\x7b"⟩, ⟨.TOK_STR_VAL, "a"⟩, ⟨.TOK_COLON, ":"⟩,
           ⟨.TOK_NUMBER, " 1"⟩] := by
  simp +decide [scan, scan_loop, find_quote, find_non_digit, quote_dist,
    nondigit_dist, substr, is_digit]

/-- C7: whenever the scan reaches a position from which only digits remain
(in particular on an input whose trailing maximal digit run meets the end of
the file, such as the whole file being `42`), the digit case's inner while
loop reaches the end of the input and `scan` fails with `TruncatedNumber`
instead of emitting a `TOK_NUMBER` token. -/
theorem c7_truncated_number (s : List Char) (start e : Nat)
    (acc : List JsonToken) (h1 : e < s.length)
    (h2 : ∀ c ∈ s.drop e, is_digit c) :
    scan_loop s start e acc = .error .TruncatedNumber := by
  have hdrop : s.drop e = s[e] :: s.drop (e + 1) := List.drop_eq_getElem_cons h1
  have hd : is_digit s[e] := h2 _ (by rw [hdrop]; exact List.mem_cons_self _ _)
  have htail : ∀ c ∈ s.drop (e + 1), is_digit c := fun c hc =>
    h2 c (by rw [hdrop]; exact List.mem_cons_of_mem _ hc)
  have hne : ∀ x : Char, ¬ is_digit x → ¬ (s[e] = x) := fun x hx he => hx (he ▸ hd)
  have h3 : ¬(s[e] = '\n' ∨ s[e] = '\t' ∨ s[e] = '\r' ∨ s[e] = ' ') := by
    rintro (h | h | h | h) <;> exact hne _ (by decide) h
  have hfnd : find_non_digit s (e + 1) = s.length := by
    have hlen : (s.drop (e + 1)).length = s.length - (e + 1) := List.length_drop _ _
    rw [find_non_digit, nondigit_dist_all _ htail, hlen]; omega
  rw [scan_loop]
  simp only [dif_pos h1]
  simp [h3, hne '\x7b' (by decide), hne '\x7d' (by decide), hne ':' (by decide),
    hne ',' (by decide), hne '"' (by decide), hd, hfnd]

/-- C7 witness: scanning the whole file `42` fails with `TruncatedNumber`. -/
theorem c7_witness : scan "42" = .error .TruncatedNumber :=
  c7_truncated_number "42".data 0 0 [] (by decide) (by decide)

/-- C8: when the scan meets a `"`, (1) if no further `"` occurs before the end
of the input, `scan` fails with `UnterminatedString`; (2) otherwise the
emitted `TOK_STR_VAL` token's content is exactly the characters strictly
between this quote and the next `"` — determined purely by the next quote, so
a `\"` inside the literal is not an escape and terminates it early — and the
scan resumes past that closing quote; (3) in particular scanning
`{"a": "unterminated` fails with `UnterminatedString`. -/
theorem c8_string_scanning :
    (∀ (s : List Char) (start e : Nat) (acc : List JsonToken)
       (h1 : e < s.length), s[e] = '"' →
       (∀ c ∈ s.drop (e + 1), c ≠ '"') →
       scan_loop s start e acc = .error .UnterminatedString) ∧
    (∀ (s : List Char) (start e : Nat) (acc : List JsonToken)
       (h1 : e < s.length) (u v : List Char), s[e] = '"' →
       s.drop (e + 1) = u ++ '"' :: v →
       (∀ c ∈ u, c ≠ '"') →
       scan_loop s start e acc =
         scan_loop s (e + 1 + u.length) (e + 1 + u.length + 1)
           (acc ++ [⟨.TOK_STR_VAL, String.mk u⟩])) ∧
    scan "\x7b\"a\": \"unterminated" = .error .UnterminatedString := by
  refine ⟨?_, ?_, ?_⟩
  · intro s start e acc h1 hq hnone
    have hfq : find_quote s (e + 1) = s.length := by
      have hlen : (s.drop (e + 1)).length = s.length - (e + 1) :=
        List.length_drop _ _
      rw [find_quote, quote_dist_all _ hnone, hlen]; omega
    rw [scan_loop]
    simp only [dif_pos h1]
    simp [hq, hfq]
  · intro s start e acc h1 u v hq hsplit hu
    have hlen : s.length = e + 1 + u.length + v.length + 1 := by
      have h := congrArg List.length hsplit
      simp [List.length_drop] at h
      omega
    have hfq : find_quote s (e + 1) = e + 1 + u.length := by
      rw [find_quote, hsplit, quote_dist_append _ _ hu]
    have hsub : substr s (e + 1) (e + 1 + u.length) = String.mk u := by
      rw [substr, hsplit]
      congr 1
      have : e + 1 + u.length - (e + 1) = u.length := by omega
      rw [this]
      exact List.take_left u ('"' :: v)
    rw [scan_loop]
    simp only [dif_pos h1]
    simp [hq, hfq, hsub]
    omega
  · simp +decide [scan, scan_loop, find_quote, find_non_digit, quote_dist,
      nondigit_dist, substr, is_digit]

/-- C8 witness: the unterminated-string case applied at the quote of the value
position in `{"a": "unterminated` (cursor state reached by the scan there). -/
theorem c8_witness :
    scan_loop "\x7b\"a\": \"unterminated".data 5 6
      [⟨.TOK_LEFT_BRACE, "\x7b"⟩, ⟨.TOK_STR_VAL, "a"⟩, ⟨.TOK_COLON, ":"⟩] =
      .error .UnterminatedString :=
  c8_string_scanning.1 _ 5 6 _ (by decide) (by decide) (by decide)

/-- C9: a `TOK_COMMA`, `TOK_RIGHT_BRACE`, `TOK_COLON` or `TOK_NUMBER` token at
the top of the parse loop (not consumed by the bare-brace or name-colon-value
productions) is skipped silently: the loop neither fails nor appends an
object, and continues with the remaining tokens unchanged. -/
theorem c9_stray_tokens_skipped (tok : JsonToken) (ts : List JsonToken)
    (objects : List JsonObject)
    (h : tok.type = .TOK_COMMA ∨ tok.type = .TOK_RIGHT_BRACE ∨
         tok.type = .TOK_COLON ∨ tok.type = .TOK_NUMBER) :
    parse_loop (tok :: ts) objects = parse_loop ts objects := by
  rcases h with h | h | h | h <;>
    (conv in parse_loop (tok :: ts) objects => rw [parse_loop.eq_def]) <;>
    simp [h]

/-- C9 witness: a stray comma before an empty remainder is skipped. -/
theorem c9_witness :
    parse_loop [⟨.TOK_COMMA, ","⟩] [] = parse_loop [] [] :=
  c9_stray_tokens_skipped ⟨.TOK_COMMA, ","⟩ [] [] (Or.inl rfl)

/-- C10: whenever `JsonParser::parse` returns a value, that value is a
`JsonGroup` whose name is the sentinel `"__ROOT__"`: either the single-element
unwrap case returns a group that already carries the sentinel name, or the
sibling list is wrapped in a fresh `JsonGroup` named `"__ROOT__"`. -/
theorem c10_root_group_invariant (tokens : List JsonToken)
    (object : JsonObject) (h : parse tokens = .ok object) :
    ∃ fields, object = .JsonGroup rootName fields := by
  rw [parse] at h
  cases hl : parse_loop tokens [] with
  | ok objs =>
    rw [hl] at h
    have hobj : object = finalize objs := by
      cases h
      rfl
    subst hobj
    unfold finalize
    split
    · rename_i name fields
      by_cases hn : name = rootName
      · exact ⟨fields, by rw [if_pos hn, hn]⟩
      · exact ⟨_, by rw [if_neg hn]⟩
    · exact ⟨_, rfl⟩
  | fail => rw [hl] at h; cases h
  | crash => rw [hl] at h; cases h

/-- C10 witness: parsing the empty token sequence returns a `"__ROOT__"`
group. -/
theorem c10_witness :
    ∃ fields, JsonObject.JsonGroup rootName [] = .JsonGroup rootName fields :=
  c10_root_group_invariant [] (.JsonGroup rootName [])
    (by simp [parse, parse_loop, finalize])

/-- C4: (1) when the parse loop meets a `TOK_STR_VAL` name followed by
`TOK_COLON` and `TOK_LEFT_BRACE`, it extracts the depth-matched span, parses
it recursively, and — the recursive result being a group carrying the
unnamed-root sentinel — re-labels that group with the field's name, appends
it, and continues past the span; (2) consequently, parsing the tokens of
`{"a": {"b": 1}}` yields an unnamed root group with exactly one child,
a group named `"a"`, which contains exactly one child, a number field
`"b"` with value 1. -/
theorem c4_named_group_relabel :
    (∀ (name colon_c brace_c : String) (ts : List JsonToken)
       (acc fields : List JsonObject),
       ts ≠ [] →
       parse (ts.take (brace_scan ts 1 - 1)) =
         .ok (.JsonGroup rootName fields) →
       parse_loop (⟨.TOK_STR_VAL, name⟩ :: ⟨.TOK_COLON, colon_c⟩ ::
           ⟨.TOK_LEFT_BRACE, brace_c⟩ :: ts) acc =
         parse_loop (ts.drop (brace_scan ts 1))
           (acc ++ [.JsonGroup name fields])) ∧
    parse [⟨.TOK_LEFT_BRACE, "\x7b"⟩, ⟨.TOK_STR_VAL, "a"⟩, ⟨.TOK_COLON, ":"⟩,
           ⟨.TOK_LEFT_BRACE, "\x7b"⟩, ⟨.TOK_STR_VAL, "b"⟩, ⟨.TOK_COLON, ":"⟩,
           ⟨.TOK_NUMBER, "1"⟩, ⟨.TOK_RIGHT_BRACE, "\x7d"⟩,
           ⟨.TOK_RIGHT_BRACE, "\x7d"⟩] =
      .ok (.JsonGroup rootName [.JsonGroup "a" [.JsonNumber "b" 1]]) := by
  constructor
  · intro name colon_c brace_c ts acc fields hts hsub
    conv in parse_loop (_ :: _ :: _ :: ts) acc => rw [parse_loop.eq_def]
    simp [hts, hsub]
  · simp +decide [parse, parse_loop, brace_scan, finalize, std_stoi,
      digits_val, is_space, rootName]

/-- C4 witness: the re-label step applied at the inner span of the example. -/
theorem c4_witness :
    parse_loop [⟨.TOK_STR_VAL, "a"⟩, ⟨.TOK_COLON, ":"⟩,
        ⟨.TOK_LEFT_BRACE, "\x7b"⟩, ⟨.TOK_STR_VAL, "b"⟩, ⟨.TOK_COLON, ":"⟩,
        ⟨.TOK_NUMBER, "1"⟩, ⟨.TOK_RIGHT_BRACE, "\x7d"⟩] [] =
      parse_loop [] [.JsonGroup "a" [.JsonNumber "b" 1]] := by
  have h := c4_named_group_relabel.1 "a" ":" "\x7b"
    [⟨.TOK_STR_VAL, "b"⟩, ⟨.TOK_COLON, ":"⟩, ⟨.TOK_NUMBER, "1"⟩,
     ⟨.TOK_RIGHT_BRACE, "\x7d"⟩] [] [.JsonNumber "b" 1]
    (by simp)
    (by simp +decide [parse, parse_loop, brace_scan, finalize, std_stoi,
      digits_val, is_space, rootName])
  simpa using h

/-- C5: after one invocation of `parse` builds its sibling list, if the list
is exactly one `JsonGroup` carrying the `"__ROOT__"` sentinel, `parse`
returns that group directly; in every other case it returns a fresh
`JsonGroup` carrying the sentinel whose children are the whole sibling list
in order. -/
theorem c5_root_unwrapping (ts : List JsonToken) (objects : List JsonObject)
    (h : parse_loop ts [] = .ok objects) :
    (∀ fields, objects = [JsonObject.JsonGroup rootName fields] →
       parse ts = .ok (.JsonGroup rootName fields)) ∧
    ((∀ fields, objects ≠ [JsonObject.JsonGroup rootName fields]) →
       parse ts = .ok (.JsonGroup rootName objects)) := by
  constructor
  · intro fields hf
    rw [parse, h, hf]
    simp [finalize]
  · intro hne
    rw [parse, h]
    have : finalize objects = .JsonGroup rootName objects := by
      unfold finalize
      split
      · rename_i name fields
        have : name ≠ rootName := by
          intro hn
          exact hne fields (by rw [hn])
        rw [if_neg this]
      · rfl
    simp [this]

/-- C5 witness: the empty sibling list is wrapped in a sentinel group. -/
theorem c5_witness : parse [] = .ok (.JsonGroup rootName []) :=
  (c5_root_unwrapping [] [] (by simp [parse_loop])).2 (by simp)

/-- C6: `JsonParser::to_string` renders every tree node depth-first in the
format stated by the spec: a group emits `"name": {` with the name prefix
omitted exactly when the group is the synthetic root, then each stored child
in insertion order on its own line one tab deeper, siblings separated by `,`,
then `}` at the group's own indentation; a string field emits
`"name": "value"`; a number field emits `"name": value` without quotes;
indentation is one tab character per nesting level (`render_spec` is that
format, written from the spec's words). -/
theorem c6_renderer_format :
    ∀ (object : JsonObject) (indent_lvl : Nat),
      to_string object indent_lvl = render_spec object indent_lvl :=
  fun object indent_lvl => to_string_eq_render_spec object indent_lvl
